import Mathlib


/-!
Shallow embedding of the ECS150 flat filesystem (src/unnamed/part_000).

Modelling conventions:
* C machine integers become `Nat` (unsigned) or `Int` (signed); the two
  unsigned subtractions that can wrap (`size_file - offset` in `fs_read`
  and `fs_write`) are embedded with an explicit modulus (`sub_mod`).
* Byte buffers and disk data blocks are total functions `Nat → Nat`
  (byte index to byte value); `memcpy` becomes a functional overlay.
* The FAT is a flat function `Nat → Nat`: the C always addresses entry
  `v` as `fat[v / 2048].next_data_blk[v % 2048]`, so the flat index `v`
  is the faithful view.
* The root directory is indexed by `Int` because the C indexes the
  array with a C `int` that can be `-1` (the free-descriptor sentinel),
  an out-of-bounds access the model keeps observable instead of UB.
* C `while` loops whose bound is not structural get an explicit `fuel`
  argument and an `Option` result; `none` means the loop did not finish
  within `fuel` steps, and divergence is `∀ fuel, ... = none`.
* The on-disk blocks carry typed contents (`DiskBlock`): the C writes
  whole in-memory structures to whole blocks, so serialization is a
  bijection and nothing is lost by keeping blocks typed.
-/

def BLOCK_SIZE : Nat := 4096

def FAT_EOC : Nat := 0xFFFF

def FS_FILENAME_LEN : Nat := 16

def FS_FILE_MAX_COUNT : Nat := 128

def FS_OPEN_MAX_COUNT : Nat := 32

def NUM_ENTRIES_FAT_BLK : Nat := 2048

/-- The 8 signature bytes of a valid superblock, spelling ECS150FS. -/
def specified_signature : List Nat := [69, 67, 83, 49, 53, 48, 70, 83]

/-- Superblock, as read from block 0 (padding omitted: never consulted). -/
structure Superblock where
  signature : List Nat
  tot_amt_blks : Nat
  root_dir_blk_idx : Nat
  data_blk_start_idx : Nat
  amt_data_blks : Nat
  num_blks_fat : Nat
deriving DecidableEq

/-- One 32-byte root directory entry (padding omitted). The filename is
the raw 16-byte field viewed as a byte function. -/
structure RootDirEntry where
  filename : Nat → Nat
  size_file : Nat
  idx_first_data_blk : Nat

/-- One slot of the in-memory file-descriptor table. -/
structure FileDescriptor where
  idx_file_root_dir : Int
  file_descriptor : Int
  file_offset : Nat
deriving DecidableEq

/-- Typed contents of one 4096-byte disk block. -/
inductive DiskBlock where
  | raw (bytes : Nat → Nat)
  | fatB (entries : Nat → Nat)
  | rootB (entries : Nat → RootDirEntry)
  | superB (sb : Superblock)

/-- Reading a data block: raw bytes, junk otherwise. -/
def rawAt (b : DiskBlock) : Nat → Nat :=
  match b with
  | .raw f => f
  | _ => fun _ => 0

/-- Reading a block as a FAT block (entry function), junk otherwise. -/
def readFatB (b : DiskBlock) : Nat → Nat :=
  match b with
  | .fatB f => f
  | _ => fun _ => 0

/-- Reading a block as the root directory, junk otherwise. -/
def readRootB (b : DiskBlock) : Nat → RootDirEntry :=
  match b with
  | .rootB f => f
  | _ => fun _ => ⟨fun _ => 0, 0, 0⟩

/-- Reading a block as a superblock, junk otherwise. -/
def readSuperB (b : DiskBlock) : Superblock :=
  match b with
  | .superB sb => sb
  | _ => ⟨List.replicate 8 0, 0, 0, 0, 0, 0⟩

/-- The whole process-wide state of the library (module globals plus the
state of the attached block device). -/
structure FSState where
  superblock : Superblock
  fat : Nat → Nat
  root_directory : Int → RootDirEntry
  FD : Nat → FileDescriptor
  num_open_fds : Int
  fs_mounted : Bool
  num_files_root_dir : Int
  num_avail_data_blks : Int
  disk : Nat → DiskBlock
  disk_open : Bool

/-- Pointwise update of a `Nat`-indexed function. -/
def upd {α : Type} (f : Nat → α) (i : Nat) (v : α) : Nat → α :=
  fun j => if j = i then v else f j

/-- Pointwise update of an `Int`-indexed function. -/
def updI {α : Type} (f : Int → α) (i : Int) (v : α) : Int → α :=
  fun j => if j = i then v else f j

/-- The `empty_FD` constant of the source. -/
def empty_FD : FileDescriptor := ⟨-1, 0, 0⟩

/-- Unsigned subtraction `a - b` at width `w` bits (both operands already
converted to that width), as performed by the C expressions
`size_file - offset`. `w` is passed as the modulus `2 ^ bits`. -/
def sub_mod (w a b : Nat) : Nat := (a % w + (w - b % w)) % w

/-- `memcpy(dst + dstOff, src + srcOff, n)` on byte functions. -/
def memcpy_into (dst : Nat → Nat) (dstOff : Nat) (src : Nat → Nat)
    (srcOff n : Nat) : Nat → Nat :=
  fun idx => if dstOff ≤ idx ∧ idx < dstOff + n then src (srcOff + (idx - dstOff)) else dst idx

/-- `is_invalid_file`, literal loop: scan indices `0..16`; hitting index
16 means no NUL terminator in the 16-byte field (return 1); a NUL byte
means valid (return 0). Fuel 17 makes the `-1` fallthrough unreachable,
as the C comment says. -/
def is_invalid_file_loop (name : Nat → Nat) : Nat → Nat → Int
  | _, 0 => -1
  | i, f + 1 =>
    if i = FS_FILENAME_LEN then 1
    else if name i = 0 then 0
    else is_invalid_file_loop name (i + 1) f

/-- `is_invalid_file(filename)`. -/
def is_invalid_file (name : Nat → Nat) : Int :=
  is_invalid_file_loop name 0 (FS_FILENAME_LEN + 1)

/-- `strcmp(a, b) == 0`, bounded: in the source every `strcmp` runs with
at least one operand NUL-terminated within 16 bytes (names are validated
first; stored names are written with a terminating NUL), so 17 compared
positions always suffice. -/
def strcmp_eq_loop (a b : Nat → Nat) : Nat → Nat → Bool
  | _, 0 => false
  | i, f + 1 =>
    if a i ≠ b i then false
    else if a i = 0 then true
    else strcmp_eq_loop a b (i + 1) f

/-- Whether `strcmp(a, b)` returns 0. -/
def strcmp_eq (a b : Nat → Nat) : Bool :=
  strcmp_eq_loop a b 0 (FS_FILENAME_LEN + 1)

/-- `strlen(name)` bounded by the 16-byte field (only called on validated
names, whose first NUL is at index ≤ 15). -/
def strlenC_loop (name : Nat → Nat) : Nat → Nat → Nat
  | i, 0 => i
  | i, f + 1 => if name i = 0 then i else strlenC_loop name (i + 1) f

/-- `strlen(name)` for a validated name. -/
def strlenC (name : Nat → Nat) : Nat := strlenC_loop name 0 FS_FILENAME_LEN

/-- The linear scan `for (x = 0; x < 128; x++) if (!strcmp(...)) break`
over the root directory; `none` plays the role of `x == 128`. -/
def find_file_loop (rd : Int → RootDirEntry) (name : Nat → Nat) : Nat → Nat → Option Nat
  | _, 0 => none
  | x, f + 1 =>
    if strcmp_eq name (rd (Int.ofNat x)).filename then some x
    else find_file_loop rd name (x + 1) f

/-- First directory slot whose stored filename compares equal to `name`. -/
def find_file (rd : Int → RootDirEntry) (name : Nat → Nat) : Option Nat :=
  find_file_loop rd name 0 FS_FILE_MAX_COUNT

/-- The scan `while (entry < 128) { if (filename[0] == 0) break; entry++ }`;
returns 128 when every slot is occupied, exactly like the C loop variable. -/
def find_empty_loop (rd : Int → RootDirEntry) : Nat → Nat → Nat
  | e, 0 => e
  | e, f + 1 => if (rd (Int.ofNat e)).filename 0 = 0 then e else find_empty_loop rd (e + 1) f

/-- First free directory slot (or 128). -/
def find_empty (rd : Int → RootDirEntry) : Nat := find_empty_loop rd 0 FS_FILE_MAX_COUNT

/-- The scan `for (i = 0; i < 32; i++) if (FD[i].file_descriptor == fd) break`. -/
def find_fd_loop (fds : Nat → FileDescriptor) (fd : Int) : Nat → Nat → Option Nat
  | _, 0 => none
  | i, f + 1 =>
    if (fds i).file_descriptor = fd then some i
    else find_fd_loop fds fd (i + 1) f

/-- First table slot whose `file_descriptor` field equals `fd`. -/
def find_fd (fds : Nat → FileDescriptor) (fd : Int) : Option Nat :=
  find_fd_loop fds fd 0 FS_OPEN_MAX_COUNT

/-- `fs_delete`'s check `for (i...) if (FD[i].idx_file_root_dir == x) return -1`. -/
def fd_refs_loop (fds : Nat → FileDescriptor) (x : Int) : Nat → Nat → Bool
  | _, 0 => false
  | i, f + 1 => if (fds i).idx_file_root_dir = x then true else fd_refs_loop fds x (i + 1) f

/-- Whether some descriptor-table slot references directory index `x`. -/
def fd_refs (fds : Nat → FileDescriptor) (x : Int) : Bool :=
  fd_refs_loop fds x 0 FS_OPEN_MAX_COUNT

/-- Environment seen by `fs_mount`: whether `block_disk_open` succeeds,
and the contents and `block_disk_count()` of the opened device. -/
structure MountEnv where
  open_ok : Bool
  dev_blocks : Nat → DiskBlock
  dev_count : Nat

/-- The FAT-loading loop of `fs_mount`: `while (i <= F) block_read(i, &fat[i-1])`,
filling in-memory FAT block `i - 1` from device block `i`. -/
def load_fat_loop (dev : Nat → DiskBlock) : Nat → Nat → (Nat → Nat) → (Nat → Nat)
  | _, 0, fatMem => fatMem
  | i, f + 1, fatMem =>
    load_fat_loop dev (i + 1) f
      (fun v => if v / NUM_ENTRIES_FAT_BLK = i - 1
                then readFatB (dev i) (v % NUM_ENTRIES_FAT_BLK) else fatMem v)

/-- `fs_mount(diskname)`. Faithful points: no `ALREADY_MOUNTED` check; on
signature / block-count mismatch it returns -1 with the device still open
and the superblock already overwritten; the root directory is read from
block `F + 1` (the loop variable), not from `root_dir_blk_idx`;
`num_files_root_dir` is not reset. -/
def fs_mount (env : MountEnv) (s : FSState) : FSState × Int :=
  if env.open_ok = false then (s, -1)
  else
    let s1 : FSState := { s with disk_open := true, disk := env.dev_blocks }
    let sb := readSuperB (env.dev_blocks 0)
    let s2 : FSState := { s1 with superblock := sb }
    if sb.signature ≠ specified_signature ∨ sb.tot_amt_blks ≠ env.dev_count then (s2, -1)
    else
      let fatMem := load_fat_loop env.dev_blocks 1 sb.num_blks_fat s2.fat
      let rootMem : Int → RootDirEntry :=
        fun x => if 0 ≤ x ∧ x < (FS_FILE_MAX_COUNT : Int)
                 then readRootB (env.dev_blocks (1 + sb.num_blks_fat)) x.toNat
                 else s2.root_directory x
      let fds := fun j => if j < FS_OPEN_MAX_COUNT then empty_FD else s2.FD j
      ({ s2 with fat := fatMem, root_directory := rootMem, FD := fds,
                 fs_mounted := true,
                 num_avail_data_blks := (sb.amt_data_blks : Int) - 1 }, 0)

/-- The write-back of all FAT blocks: `while (y <= F) block_write(y, &fat[y-1])`. -/
def write_back_fat_loop (fat : Nat → Nat) : Nat → Nat → (Nat → DiskBlock) → (Nat → DiskBlock)
  | _, 0, disk => disk
  | y, f + 1, disk =>
    write_back_fat_loop fat (y + 1) f
      (upd disk y (.fatB (fun e => fat ((y - 1) * NUM_ENTRIES_FAT_BLK + e))))

/-- `fs_create(filename)`. Faithful points: the slot-full guard is the
session counter `num_files_root_dir`, not the occupancy of the directory;
the name is compared against every slot including free ones; only
`strlen + 1` bytes of the filename field are overwritten. -/
def fs_create (s : FSState) (name : Nat → Nat) : FSState × Int :=
  if ¬s.fs_mounted ∨ s.num_files_root_dir ≥ (FS_FILE_MAX_COUNT : Int) ∨
     is_invalid_file name ≠ 0 then (s, -1)
  else
    match find_file s.root_directory name with
    | some _ => (s, -1)
    | none =>
      let entry := find_empty s.root_directory
      let n := strlenC name
      let oldE := s.root_directory (Int.ofNat entry)
      let newName : Nat → Nat :=
        fun b => if b < n then name b else if b = n then 0 else oldE.filename b
      let rd := updI s.root_directory (Int.ofNat entry)
        { filename := newName, size_file := 0, idx_first_data_blk := FAT_EOC }
      let disk := upd s.disk s.superblock.root_dir_blk_idx
        (.rootB (fun k => rd (Int.ofNat k)))
      ({ s with root_directory := rd, num_files_root_dir := s.num_files_root_dir + 1,
                disk := disk }, 0)

/-- The chain-freeing loop of `fs_delete`: follow the chain zeroing each
entry and counting one freed block per followed link; the final `FAT_EOC`
entry is zeroed without incrementing the counter (exactly as in the
source, where the increment sits inside the loop only). -/
def free_chain (fat : Nat → Nat) : Nat → Nat → Option ((Nat → Nat) × Nat)
  | 0, _ => none
  | f + 1, cur =>
    if fat cur = FAT_EOC then some (upd fat cur 0, 0)
    else
      let nxt := fat cur
      match free_chain (upd fat cur 0) f nxt with
      | none => none
      | some (g, k) => some (g, k + 1)

/-- `fs_delete(filename)`. Faithful points: the name may be empty (the
validator accepts it), in which case the scan matches the first free
slot; the root directory is written to device block `F + 1` (the loop
variable). -/
def fs_delete (fuel : Nat) (s : FSState) (name : Nat → Nat) : Option (FSState × Int) :=
  if ¬s.fs_mounted ∨ is_invalid_file name ≠ 0 then some (s, -1)
  else
    match find_file s.root_directory name with
    | none => some (s, -1)
    | some x =>
      if fd_refs s.FD (Int.ofNat x) then some (s, -1)
      else
        let e := s.root_directory (Int.ofNat x)
        let freed : Option ((Nat → Nat) × Nat) :=
          if e.idx_first_data_blk ≠ FAT_EOC
          then free_chain s.fat fuel e.idx_first_data_blk
          else some (s.fat, 0)
        match freed with
        | none => none
        | some (fat1, navailInc) =>
          let rd := updI s.root_directory (Int.ofNat x)
            { e with filename := fun b => if b = 0 then 0 else e.filename b,
                     size_file := 0, idx_first_data_blk := FAT_EOC }
          let disk1 := write_back_fat_loop fat1 1 s.superblock.num_blks_fat s.disk
          let disk2 := upd disk1 (1 + s.superblock.num_blks_fat)
            (.rootB (fun k => rd (Int.ofNat k)))
          some ({ s with fat := fat1, root_directory := rd,
                         num_avail_data_blks := s.num_avail_data_blks + navailInc,
                         disk := disk2 }, 0)

/-- The scan `while (FD[fd_idx].file_descriptor != 0) fd_idx++` of
`fs_open`; unbounded in the source, hence fueled. -/
def scan_free_fd (fds : Nat → FileDescriptor) : Nat → Nat → Option Nat
  | 0, _ => none
  | f + 1, i => if (fds i).file_descriptor ≠ 0 then scan_free_fd fds f (i + 1) else some i

/-- `fs_open(filename)`. Faithful point: an empty name matches the first
free directory slot, opening a descriptor onto a slot with no file. -/
def fs_open (fuel : Nat) (s : FSState) (name : Nat → Nat) : Option (FSState × Int) :=
  if ¬s.fs_mounted ∨ s.num_open_fds ≥ (FS_OPEN_MAX_COUNT : Int) ∨
     is_invalid_file name ≠ 0 then some (s, -1)
  else
    match find_file s.root_directory name with
    | none => some (s, -1)
    | some i =>
      match scan_free_fd s.FD fuel 0 with
      | none => none
      | some fd_idx =>
        let fds := upd s.FD fd_idx
          { idx_file_root_dir := Int.ofNat i,
            file_descriptor := Int.ofNat (fd_idx + 1), file_offset := 0 }
        some ({ s with FD := fds, num_open_fds := s.num_open_fds + 1 },
              Int.ofNat (fd_idx + 1))

/-- `fs_close(fd)`. Faithful point: `fd = 0` matches the first free slot
(whose `file_descriptor` field is 0), so closing descriptor 0 succeeds
and decrements `num_open_fds` whenever a free slot exists. -/
def fs_close (s : FSState) (fd : Int) : FSState × Int :=
  if ¬s.fs_mounted ∨ fd > (FS_OPEN_MAX_COUNT : Int) then (s, -1)
  else
    match find_fd s.FD fd with
    | none => (s, -1)
    | some i =>
      ({ s with FD := upd s.FD i empty_FD, num_open_fds := s.num_open_fds - 1 }, 0)

/-- `fs_stat(fd)`. For `fd = 0` with a free slot this reads
`root_directory[-1]`, which the `Int`-indexed model keeps observable. -/
def fs_stat (s : FSState) (fd : Int) : FSState × Int :=
  if ¬s.fs_mounted ∨ fd > (FS_OPEN_MAX_COUNT : Int) then (s, -1)
  else
    match find_fd s.FD fd with
    | none => (s, -1)
    | some i => (s, Int.ofNat (s.root_directory ((s.FD i).idx_file_root_dir)).size_file)

/-- `fs_lseek(fd, offset)`. -/
def fs_lseek (s : FSState) (fd : Int) (offset : Nat) : FSState × Int :=
  let size_file := (fs_stat s fd).2
  if size_file = -1 ∨ (Int.ofNat offset) > size_file then (s, -1)
  else
    match find_fd s.FD fd with
    | none => (s, -1)
    | some i =>
      ({ s with FD := upd s.FD i { s.FD i with file_offset := offset } }, 0)

/-- Chain materialization of `fs_read`/`fs_write`: starting block first,
then follow the FAT until `FAT_EOC`; returns the relative data-block
indices in order. `none` when the walk does not finish within `fuel`. -/
def fat_chain (fat : Nat → Nat) : Nat → Nat → Option (List Nat)
  | 0, _ => none
  | f + 1, cur =>
    if fat cur = FAT_EOC then some [cur]
    else
      match fat_chain fat f (fat cur) with
      | none => none
      | some rest => some (cur :: rest)

/-- The loop `while (file_blocks[k] != FAT_EOC) block_read(file_blocks[k], &arr[k*B])`,
reading each materialized block into the staging buffer. -/
def read_blocks_loop (disk : Nat → DiskBlock) : List Nat → Nat → (Nat → Nat) → (Nat → Nat)
  | [], _, arr => arr
  | b :: rest, k, arr =>
    read_blocks_loop disk rest (k + 1)
      (memcpy_into arr (k * BLOCK_SIZE) (rawAt (disk b)) 0 BLOCK_SIZE)

/-- `fs_read(fd, buf, count)`. The result carries the state, the return
value and the caller's buffer after the copy-out. -/
def fs_read (fuel : Nat) (s : FSState) (fd : Int) (buf : Option (Nat → Nat)) (count : Nat) :
    Option (FSState × Int × Option (Nat → Nat)) :=
  match buf with
  | none => some (s, -1, none)
  | some bf =>
    if ¬s.fs_mounted ∨ fd > (FS_OPEN_MAX_COUNT : Int) then some (s, -1, some bf)
    else
      match find_fd s.FD fd with
      | none => some (s, -1, some bf)
      | some i =>
        let x := (s.FD i).idx_file_root_dir
        let j := (s.root_directory x).idx_first_data_blk
        if j = FAT_EOC then some (s, 0, some bf)
        else
          match fat_chain s.fat fuel j with
          | none => none
          | some chainRel =>
            let fbs := chainRel.map (fun v => s.superblock.data_blk_start_idx + v)
            let arr := read_blocks_loop s.disk fbs 0 (fun _ => 0)
            let d := sub_mod (2 ^ 64) (s.root_directory x).size_file (s.FD i).file_offset
            let actual := if count > d then d else count
            let bf2 := memcpy_into bf 0 arr (s.FD i).file_offset actual
            let newFD := upd s.FD i ({ s.FD i with file_offset := (s.FD i).file_offset + actual })
            some ({ s with FD := newFD }, Int.ofNat actual, some bf2)

/-- Mutable state of `fs_write`'s main loop: the global state, the byte
counter `z`, the staging buffer `file_blocks_array`, and the materialized
block list `file_blocks` (whose length is the C's `counter`). -/
structure WSt where
  fs : FSState
  z : Nat
  arr : Nat → Nat
  fbs : List Nat

/-- The inner byte-copy loop of `fs_write`:
`while (counter != 0 && (z + offset) / (counter * B) == 0)`, one byte per
iteration, growing `size_file` with each byte. The loop advances `z` at
every step and stops at `z == count`, so `count + 1` iterations always
suffice; a fuel of `count + 1` is exact, never short. -/
def write_inner (buf : Nat → Nat) (count offset : Nat) (x : Int) : Nat → WSt → WSt
  | 0, w => w
  | f + 1, w =>
    if w.fbs.length ≠ 0 ∧ (w.z + offset) / (w.fbs.length * BLOCK_SIZE) = 0 then
      if w.z = count then w
      else
        let e := w.fs.root_directory x
        write_inner buf count offset x f
          (let rd := updI w.fs.root_directory x ({ e with size_file := e.size_file + 1 })
           { w with arr := upd w.arr (w.z + offset) (buf w.z), z := w.z + 1,
                    fs := ({ w.fs with root_directory := rd }) })
    else w

/-- The tail-finding walk of `fs_write`'s allocation step:
follow the FAT from the first block until an `FAT_EOC` entry. -/
def tail_walk (fat : Nat → Nat) : Nat → Nat → Option Nat
  | 0, _ => none
  | f + 1, cur => if fat cur = FAT_EOC then some cur else tail_walk fat f (fat cur)

/-- The free-entry scan of `fs_write`'s allocation step. The source's
outer loop over FAT blocks ends in an unconditional `break`, so only
block `c = 0` is ever scanned: the scan covers flat entries
`0 .. NUM_ENTRIES_FAT_BLK - 1` and nothing beyond, regardless of
`num_blks_fat`. -/
def scan_free_fat (fat : Nat → Nat) : Nat → Nat → Option Nat
  | 0, _ => none
  | f + 1, d => if fat d = 0 then some d else scan_free_fat fat f (d + 1)

/-- The outer `while (z < count)` loop of `fs_write`: run the byte-copy
loop; if bytes remain, stop when `num_avail_data_blks == 0`, otherwise
allocate one block (tail walk, then the first-FAT-block-only scan, then
link, read the fresh block into the staging buffer) and continue. When
the scan finds no free entry the loop repeats on an unchanged state,
exactly as the source does. -/
def write_outer (buf : Nat → Nat) (count offset : Nat) (x : Int) (start fatFuel : Nat) :
    Nat → WSt → Option WSt
  | 0, _ => none
  | f + 1, w =>
    if w.z < count then
      let w1 := write_inner buf count offset x (count + 1) w
      if w1.z < count then
        if w1.fs.num_avail_data_blks = 0 then some w1
        else
          let v := (w1.fs.root_directory x).idx_first_data_blk
          let tailRes := if v ≠ FAT_EOC then tail_walk w1.fs.fat fatFuel v else some 0
          match tailRes with
          | none => none
          | some tl =>
            match scan_free_fat w1.fs.fat NUM_ENTRIES_FAT_BLK 0 with
            | none => write_outer buf count offset x start fatFuel f w1
            | some d =>
              let fat1 := if v ≠ FAT_EOC then upd w1.fs.fat tl d else w1.fs.fat
              let fat2 := upd fat1 d FAT_EOC
              let rd1 := if v = FAT_EOC
                         then updI w1.fs.root_directory x ({ w1.fs.root_directory x with idx_first_data_blk := d })
                         else w1.fs.root_directory
              let arr1 := memcpy_into w1.arr (w1.fbs.length * BLOCK_SIZE)
                            (rawAt (w1.fs.disk (d + start))) 0 BLOCK_SIZE
              write_outer buf count offset x start fatFuel f
                (let na := w1.fs.num_avail_data_blks - 1
                 let fs2 := { w1.fs with fat := fat2, root_directory := rd1, num_avail_data_blks := na }
                 { fs := fs2, z := w1.z, arr := arr1, fbs := w1.fbs ++ [d + start] })
      else some w1
    else some w

/-- The final `while (file_blocks[l] != FAT_EOC) block_write(...)` of
`fs_write`, flushing each staged block back to its data block. -/
def write_back_blocks_loop (arr : Nat → Nat) : List Nat → Nat → (Nat → DiskBlock) → (Nat → DiskBlock)
  | [], _, disk => disk
  | b :: rest, l, disk =>
    write_back_blocks_loop arr rest (l + 1)
      (upd disk b (.raw (fun off => arr (l * BLOCK_SIZE + off))))

/-- `fs_write(fd, buf, count)`. Faithful points: the handle offset is
never advanced; the overlap copy length is `min(count, size - offset)`
with the subtraction performed at 32 bits (`size_file` is `uint32_t` and
`offset` a C `int`); the allocation scan looks only at the first FAT
block; running out of `num_avail_data_blks` truncates the write. -/
def fs_write (fuel : Nat) (s : FSState) (fd : Int) (buf : Option (Nat → Nat)) (count : Nat) :
    Option (FSState × Int) :=
  match buf with
  | none => some (s, -1)
  | some bf =>
    if ¬s.fs_mounted ∨ fd > (FS_OPEN_MAX_COUNT : Int) then some (s, -1)
    else
      match find_fd s.FD fd with
      | none => some (s, -1)
      | some i =>
        let x := (s.FD i).idx_file_root_dir
        let j := (s.root_directory x).idx_first_data_blk
        let chainRes : Option (List Nat) :=
          if j ≠ FAT_EOC then fat_chain s.fat fuel j else some []
        match chainRes with
        | none => none
        | some chainRel =>
          let fbs := chainRel.map (fun v => s.superblock.data_blk_start_idx + v)
          let arr0 := read_blocks_loop s.disk fbs 0 (fun _ => 0)
          let offset := (s.FD i).file_offset
          let d0 := sub_mod (2 ^ 32) (s.root_directory x).size_file offset
          let actual := if count > d0 then d0 else count
          let arr1 := memcpy_into arr0 offset bf 0 actual
          let w0 : WSt := { fs := s, z := actual, arr := arr1, fbs := fbs }
          match write_outer bf count offset x s.superblock.data_blk_start_idx fuel fuel w0 with
          | none => none
          | some w =>
            let disk1 := write_back_blocks_loop w.arr w.fbs 0 w.fs.disk
            let disk2 := upd disk1 s.superblock.root_dir_blk_idx
              (.rootB (fun k => w.fs.root_directory (Int.ofNat k)))
            let disk3 := write_back_fat_loop w.fs.fat 1 s.superblock.num_blks_fat disk2
            some ({ w.fs with disk := disk3 }, Int.ofNat w.z)

/-- A zero-filled directory entry, as `mkfs` leaves free slots on disk
(note its `idx_first_data_blk` is 0, not `FAT_EOC`). -/
def blankEntry : RootDirEntry := ⟨fun _ => 0, 0, 0⟩

/-- First FAT block of a freshly formatted disk: entry 0 is `FAT_EOC`,
everything else free. -/
def blankFatEnt : Nat → Nat := fun e => if e = 0 then FAT_EOC else 0

/-- A freshly formatted, empty disk with `F` FAT blocks and `D` data
blocks, exposed through the block-device interface. -/
def blankEnv (F D : Nat) : MountEnv :=
  { open_ok := true,
    dev_blocks := fun b =>
      if b = 0 then .superB ⟨specified_signature, 2 + F + D, 1 + F, 2 + F, D, F⟩
      else if b = 1 then .fatB blankFatEnt
      else if b ≤ F then .fatB (fun _ => 0)
      else if b = F + 1 then .rootB (fun _ => blankEntry)
      else .raw (fun _ => 0),
    dev_count := 2 + F + D }

/-- The process-start state: all module globals zero-initialized. -/
def procInit : FSState :=
  { superblock := ⟨List.replicate 8 0, 0, 0, 0, 0, 0⟩,
    fat := fun _ => 0,
    root_directory := fun _ => blankEntry,
    FD := fun _ => ⟨0, 0, 0⟩,
    num_open_fds := 0, fs_mounted := false, num_files_root_dir := 0,
    num_avail_data_blks := 0, disk := fun _ => .raw (fun _ => 0), disk_open := false }

/-- The one-character filename f. -/
def nameF : Nat → Nat := fun b => if b = 0 then 102 else 0

/-- The empty C string: a name whose first byte is already NUL. -/
def emptyName : Nat → Nat := fun _ => 0

/-- An arbitrary data buffer for write scenarios. -/
def bufA : Nat → Nat := fun i => (i + 7) % 256

/-- Directory full of 128 distinct one- or two-byte names; slot `x` holds
the name consisting of byte 97 then byte `x` (so slot 0 holds the
one-byte name a). -/
def fullRootDir : Int → RootDirEntry := fun x =>
  if 0 ≤ x ∧ x < 128 then
    { filename := fun b => if b = 0 then 97 else if b = 1 then x.toNat else 0,
      size_file := 0, idx_first_data_blk := FAT_EOC }
  else blankEntry

/-- The one-character filename a. -/
def nameA : Nat → Nat := fun b => if b = 0 then 97 else 0

/-- A mounted state whose 128 directory slots are all occupied by empty
files; reachable by creating 128 files on a fresh disk, which also drives
the session counter `num_files_root_dir` to 128. -/
def sFullDir : FSState :=
  { superblock := ⟨specified_signature, 7, 2, 3, 4, 1⟩,
    fat := blankFatEnt, root_directory := fullRootDir, FD := fun _ => empty_FD,
    num_open_fds := 0, fs_mounted := true, num_files_root_dir := 128,
    num_avail_data_blks := 3, disk := (blankEnv 1 4).dev_blocks, disk_open := true }

/-- Scenario for C1, reachable from a blank two-data-block disk: create a
file, write one byte (allocating data block 1), close, delete the file
(which zeroes FAT entry 1 but, because the free counter is incremented
only for followed links, leaves `num_avail_data_blks` at 0), re-create
and re-open the file, then try to write `BLOCK_SIZE + 1` bytes.
The result records that write's return value and FAT entry 1. -/
def c1_run : Option (Int × Nat) := do
  let t0 := (fs_mount (blankEnv 1 2) procInit).1
  let t1 := (fs_create t0 nameF).1
  let (t2, fd) ← fs_open 33 t1 nameF
  let (t3, _r1) ← fs_write 100 t2 fd (some bufA) 1
  let (t4, _rc) := fs_close t3 fd
  let (t5, _rd) ← fs_delete 100 t4 nameF
  let t6 := (fs_create t5 nameF).1
  let (t7, fd2) ← fs_open 33 t6 nameF
  let (t8, r2) ← fs_write 9000 t7 fd2 (some bufA) 4097
  pure (r2, t8.fat 1)

/-- Scenario for C6/C7: mount a freshly formatted disk and call
`fs_delete` with the empty name. The validator accepts the empty name,
the directory scan matches the first free slot (whose on-disk
`idx_first_data_blk` is 0, not `FAT_EOC`), and the chain-free walk then
zeroes FAT entry 0. The result records FAT entry 0 and the return value. -/
def c6_run : Option (Nat × Int) := do
  let s0 := (fs_mount (blankEnv 1 4) procInit).1
  let (s1, r) ← fs_delete 100 s0 emptyName
  pure (s1.fat 0, r)

/-- Scenario for C7: on a freshly mounted blank disk, call `fs_delete`
and then `fs_open` with the empty name (an invalid name per the claim:
first byte NUL). Records both return values and FAT entry 0 after the
delete. -/
def c7_run : Option (Int × Int × Nat) := do
  let s0 := (fs_mount (blankEnv 1 4) procInit).1
  let (s1, rd) ← fs_delete 100 s0 emptyName
  let (_s2, ro) ← fs_open 33 s1 emptyName
  pure (rd, ro, s1.fat 0)

/-- Scenario for C8: on a freshly mounted disk with no open handles,
call `fs_close(0)`. Records the return value and `num_open_fds`. -/
def c8_run : Int × Int :=
  let s0 := (fs_mount (blankEnv 1 4) procInit).1
  let (s1, rc) := fs_close s0 0
  (rc, s1.num_open_fds)

/-- Scenario for C9: from the full-directory state (128 files created in
this session, so `num_files_root_dir = 128`), delete file a and then try
to create it again. Records delete's return value, create's return
value, and the first filename byte of the freed slot. -/
def c9_run : Option (Int × Int × Nat) := do
  let (s1, rd) ← fs_delete 100 sFullDir nameA
  let (_, rc) := fs_create s1 nameA
  pure (rd, rc, (s1.root_directory 0).filename 0)

/-- A device whose block 0 reads back as a superblock with an all-zero
signature. -/
def envBadSig : MountEnv :=
  { open_ok := true,
    dev_blocks := fun _ => .superB ⟨List.replicate 8 0, 5, 2, 3, 2, 1⟩,
    dev_count := 5 }

/-- Spec-side refinement target for C3, following the spec's words: the
content of a file is the in-order concatenation of the data blocks of
its FAT chain, each block contributing `BLOCK_SIZE` bytes. -/
def fileContent : List (Nat → Nat) → Nat → Nat
  | [], _ => 0
  | blk :: rest, idx =>
    if idx < BLOCK_SIZE then blk idx else fileContent rest (idx - BLOCK_SIZE)

/-- Directory entry of the C3 witness file: name f, size 10, first data
block 1. -/
def eC3 : RootDirEntry := ⟨fun b => if b = 0 then 102 else 0, 10, 1⟩

/-- Concrete mounted state for the C3 and C5 witnesses: one file of size
10 whose single-block chain is data block 1 (absolute block 4, holding
byte pattern `o + 3`), opened as descriptor 1 at offset 2. -/
def sC3 : FSState :=
  { superblock := ⟨specified_signature, 7, 2, 3, 4, 1⟩,
    fat := fun v => if v = 0 then FAT_EOC else if v = 1 then FAT_EOC else 0,
    root_directory := fun x => if x = 0 then eC3 else blankEntry,
    FD := fun i => if i = 0 then ⟨0, 1, 2⟩ else empty_FD,
    num_open_fds := 1, fs_mounted := true, num_files_root_dir := 1,
    num_avail_data_blks := 2,
    disk := fun b => if b = 4 then .raw (fun o => o + 3) else (blankEnv 1 4).dev_blocks b,
    disk_open := true }

/-- The C5 read witness run: read 2 bytes through descriptor 1 of `sC3`. -/
def c5r : FSState × Int × Option (Nat → Nat) :=
  (fs_read 5 sC3 1 (some bufA) 2).getD (procInit, 0, none)

/-- The C5 write witness run: write 3 bytes through descriptor 1 of `sC3`. -/
def c5w : FSState × Int :=
  (fs_write 50 sC3 1 (some bufA) 3).getD (procInit, 0)

/-- The state after a successful allocation step of `fs_write` on a file
whose chain was empty (`idx_first_data_blk = FAT_EOC`): the free entry
`d` becomes the chain, the directory entry points at it, the free-block
counter drops, and the fresh block is staged. -/
def alloc_step_eoc (w1 : WSt) (x : Int) (d start : Nat) : WSt :=
  let fs2 := { w1.fs with fat := upd w1.fs.fat d FAT_EOC, root_directory := updI w1.fs.root_directory x ({ w1.fs.root_directory x with idx_first_data_blk := d }), num_avail_data_blks := w1.fs.num_avail_data_blks - 1 }
  { fs := fs2,
    z := w1.z,
    arr := memcpy_into w1.arr (w1.fbs.length * BLOCK_SIZE)
             (rawAt (w1.fs.disk (d + start))) 0 BLOCK_SIZE,
    fbs := w1.fbs ++ [d + start] }

/-- The C4 scenario state: a blank disk with one usable data block
(`D = 2`), a freshly created empty file f, opened as descriptor 1 at
offset 0. -/
def c4_s2 : FSState :=
  ((fs_open 33 ((fs_create ((fs_mount (blankEnv 1 2) procInit).1) nameF).1) nameF).getD
    (procInit, 0)).1

/-- The (empty) staging buffer of the first C4 write. -/
def c4_arr1 : Nat → Nat :=
  memcpy_into (read_blocks_loop c4_s2.disk [] 0 (fun _ => 0)) 0 bufA 0 0

/-- Loop state at entry of the first C4 write. -/
def c4_w0 : WSt := { fs := c4_s2, z := 0, arr := c4_arr1, fbs := [] }

/-- Loop state of the first C4 write after its single allocation. -/
def c4_w0p : WSt := alloc_step_eoc c4_w0 0 1 3

/-- FAT of the C2 counterexample disk (`F = 2`, `D = 2049`): entry 0 is
reserved, entries 1..2047 form one file's chain (each pointing at its
successor, entry 2047 ending the chain), entry 2048 — the first entry of
the second FAT block — is the only free entry. -/
def stuckFat : Nat → Nat := fun v =>
  if v = 0 then FAT_EOC
  else if v ≤ 2046 then v + 1
  else if v = 2047 then FAT_EOC
  else 0

/-- Superblock of the C2 counterexample disk: 2053 total blocks, 2 FAT
blocks, root at 3, data from 4, 2049 data blocks. -/
def stuckSB : Superblock := ⟨specified_signature, 2053, 3, 4, 2049, 2⟩

/-- The one file of the C2 state: name f, 2047 full blocks, chain head 1. -/
def stuckEntry : RootDirEntry := ⟨nameF, 2047 * 4096, 1⟩

/-- A free directory slot whose pointer was reset by an earlier delete. -/
def freeEntry : RootDirEntry := ⟨fun _ => 0, 0, FAT_EOC⟩

/-- The C2 counterexample state: mounted, invariant-satisfying, one file
filling every data block of the first FAT block, descriptor 1 open at the
file's end, and exactly one free data block — in the second FAT block. -/
def stuckState : FSState :=
  { superblock := stuckSB, fat := stuckFat,
    root_directory := fun x => if x = 0 then stuckEntry else freeEntry,
    FD := fun i => if i = 0 then ⟨0, 1, 2047 * 4096⟩ else empty_FD,
    num_open_fds := 1, fs_mounted := true, num_files_root_dir := 1,
    num_avail_data_blks := 1,
    disk := fun b =>
      if b = 0 then .superB stuckSB
      else if b = 1 then .fatB (fun e => stuckFat e)
      else if b = 2 then .fatB (fun e => stuckFat (NUM_ENTRIES_FAT_BLK + e))
      else if b = 3 then .rootB (fun k => if k = 0 then stuckEntry else freeEntry)
      else .raw (fun _ => 0),
    disk_open := true }

/-- Spec invariant 2 for one directory slot: an empty file has size 0; a
non-empty file's chain materializes within `amt_data_blks + 1` steps,
stays inside `[1, amt_data_blks)`, never repeats a block, and covers the
file's size. -/
def chain_ok (s : FSState) (x : Nat) : Prop :=
  let e := s.root_directory (x : Int)
  if e.idx_first_data_blk = FAT_EOC then e.size_file = 0
  else ∃ c : List Nat,
    fat_chain s.fat (s.superblock.amt_data_blks + 1) e.idx_first_data_blk = some c ∧
    (∀ v ∈ c, 1 ≤ v ∧ v < s.superblock.amt_data_blks) ∧
    c.Nodup ∧
    e.size_file ≤ c.length * BLOCK_SIZE

/-- Number of free FAT entries among indices `[1, amt_data_blks)` (entry
0 is reserved and never counted free). -/
def free_fat_count (s : FSState) : Nat :=
  ((List.range s.superblock.amt_data_blks).filter
    (fun v => !(v == 0) && (s.fat v == 0))).length

/-- The data-model invariants of the spec for a mounted state: FAT entry
0 reserved (invariant 1), well-formed chains (2), geometry consistency
(5), free-counter consistency (6), every used data block reachable from
some file's chain (3), unique filenames (4), and every open handle bound
to an occupied slot with its offset within the file size. -/
def Invariant (s : FSState) : Prop :=
  s.fs_mounted = true ∧
  s.fat 0 = FAT_EOC ∧
  1 ≤ s.superblock.amt_data_blks ∧
  s.superblock.tot_amt_blks = 2 + s.superblock.num_blks_fat + s.superblock.amt_data_blks ∧
  s.superblock.root_dir_blk_idx = 1 + s.superblock.num_blks_fat ∧
  s.superblock.data_blk_start_idx = 2 + s.superblock.num_blks_fat ∧
  s.superblock.amt_data_blks ≤ NUM_ENTRIES_FAT_BLK * s.superblock.num_blks_fat ∧
  s.num_avail_data_blks = (free_fat_count s : Int) ∧
  (∀ x : Nat, x < FS_FILE_MAX_COUNT →
    (s.root_directory (x : Int)).filename 0 ≠ 0 → chain_ok s x) ∧
  (∀ v : Nat, 1 ≤ v → v < s.superblock.amt_data_blks → s.fat v ≠ 0 →
    ∃ x : Nat, x < FS_FILE_MAX_COUNT ∧
      (s.root_directory (x : Int)).filename 0 ≠ 0 ∧
      ∃ c : List Nat,
        fat_chain s.fat (s.superblock.amt_data_blks + 1)
          (s.root_directory (x : Int)).idx_first_data_blk = some c ∧ v ∈ c) ∧
  (∀ x y : Nat, x < FS_FILE_MAX_COUNT → y < FS_FILE_MAX_COUNT → x ≠ y →
    (s.root_directory (x : Int)).filename 0 ≠ 0 →
    (s.root_directory (y : Int)).filename 0 ≠ 0 →
    strcmp_eq (s.root_directory (x : Int)).filename
      (s.root_directory (y : Int)).filename = false) ∧
  (∀ i : Nat, i < FS_OPEN_MAX_COUNT → (s.FD i).file_descriptor ≠ 0 →
    ∃ x : Nat, x < FS_FILE_MAX_COUNT ∧ (s.FD i).idx_file_root_dir = (x : Int) ∧
      (s.root_directory (x : Int)).filename 0 ≠ 0 ∧
      (s.FD i).file_offset ≤ (s.root_directory (x : Int)).size_file)

/-- C1: `fs_write` returns 0 bytes (fewer than the requested 4097) even
though FAT entry 1 — an index in `[1, amt_data_blks)` — is free (equal to
0) in the final state: deleting a file increments the free-block counter
only for followed links, so after freeing a one-block file the counter
stays 0 and the write gives up although a zero FAT entry remains. This
contradicts the claim that a short return happens only when no free FAT
entry remains. -/
theorem fs_write_short_return_with_free_entry : c1_run = some (0, 0) := rfl

/-- C6: from a mounted, well-formed blank disk, the single API call
`fs_delete` with the empty name drives FAT entry 0 from `FAT_EOC` to 0
and reports success, violating the claimed invariant that FAT entry 0 is
always `FAT_EOC` in every reachable state. -/
theorem fat_entry_zero_clobbered_by_delete :
    (fs_mount (blankEnv 1 4) procInit).1.fat 0 = FAT_EOC ∧ c6_run = some (0, 0) :=
  ⟨rfl, rfl⟩

/-- C7: `is_invalid_file` accepts the empty name (returns 0), so
`fs_delete` of the empty name returns 0 — not -1 — and mutates the FAT
(entry 0 becomes 0), and `fs_open` of the empty name returns descriptor
1 — not -1 — opening a handle onto a free directory slot. This refutes
the claim that create, delete and open all return -1 and leave the state
unchanged for every invalid (empty or unterminated) name. -/
theorem empty_name_accepted_by_delete_and_open :
    c7_run = some (0, 1, 0) ∧ is_invalid_file emptyName = 0 :=
  ⟨rfl, rfl⟩

/-- C8: `fs_close(0)` on a mounted state with a free descriptor slot
returns 0 — not -1 — because the lookup loop matches the first slot whose
`file_descriptor` field is 0, i.e. a *free* slot; the open-handle counter
is then decremented to -1 although no handle was open. This refutes the
claim that `fs_close` returns -1 and leaves the handle table and counter
unchanged for every fd that is not an open descriptor, including 0. -/
theorem fs_close_zero_matches_free_slot : c8_run = (0, -1) := rfl

/-- C9: with all 128 slots occupied, `fs_delete` of an existing unopened
file succeeds (returns 0, freeing its slot: the filename's first byte
becomes 0), but the subsequent `fs_create` of the same name returns -1:
`fs_delete` never decrements the session counter `num_files_root_dir`,
so create's `num_files_root_dir >= 128` guard fires even though a slot
is free. This refutes the claim that delete-then-create succeeds when
the directory was full before the delete. -/
theorem delete_then_create_fails_after_full_dir : c9_run = some (0, -1, 0) := rfl

/-- C10: if `block_disk_open` succeeds but validation fails (bad
signature or block-count mismatch), `fs_mount` returns -1 while the
device stays open (`disk_open = true`), the in-memory superblock holds
the contents read from block 0, and the mounted flag stays false. -/
theorem fs_mount_failed_validation_leaves_device_open (env : MountEnv) (s : FSState)
    (hopen : env.open_ok = true) (hm : s.fs_mounted = false)
    (hbad : (readSuperB (env.dev_blocks 0)).signature ≠ specified_signature ∨
            (readSuperB (env.dev_blocks 0)).tot_amt_blks ≠ env.dev_count) :
    fs_mount env s =
      ({ s with disk_open := true, disk := env.dev_blocks,
                superblock := readSuperB (env.dev_blocks 0) }, -1) ∧
    (fs_mount env s).1.fs_mounted = false := by
  have h1 : fs_mount env s =
      ({ s with disk_open := true, disk := env.dev_blocks,
                superblock := readSuperB (env.dev_blocks 0) }, -1) := by
    unfold fs_mount
    rw [hopen]
    simp only [Bool.true_eq_false, if_false]
    rw [if_pos hbad]
  exact ⟨h1, by rw [h1]; exact hm⟩

/-- Witness for C10 at a concrete device with a corrupt signature. -/
theorem fs_mount_failed_validation_witness :
    (envBadSig.open_ok = true ∧ procInit.fs_mounted = false ∧
     ((readSuperB (envBadSig.dev_blocks 0)).signature ≠ specified_signature ∨
      (readSuperB (envBadSig.dev_blocks 0)).tot_amt_blks ≠ envBadSig.dev_count)) ∧
    (fs_mount envBadSig procInit =
      ({ procInit with disk_open := true, disk := envBadSig.dev_blocks,
                       superblock := readSuperB (envBadSig.dev_blocks 0) }, -1) ∧
     (fs_mount envBadSig procInit).1.fs_mounted = false) :=
  ⟨⟨rfl, rfl, Or.inl (by decide)⟩,
   fs_mount_failed_validation_leaves_device_open envBadSig procInit rfl rfl
     (Or.inl (by decide))⟩

/-- `sub_mod` agrees with plain subtraction when no wrap occurs. -/
theorem sub_mod_eq_sub (w a b : Nat) (hba : b ≤ a) (haw : a < w) :
    sub_mod w a b = a - b := by
  unfold sub_mod
  have hb : b % w = b := Nat.mod_eq_of_lt (lt_of_le_of_lt hba haw)
  have ha : a % w = a := Nat.mod_eq_of_lt haw
  rw [ha, hb]
  have h1 : a + (w - b) = (a - b) + w := by omega
  rw [h1, Nat.add_mod_right]
  exact Nat.mod_eq_of_lt (by omega)

/-- Positions below the staging window are untouched by the block-read
loop. -/
theorem read_blocks_loop_lower (disk : Nat → DiskBlock) (l : List Nat) :
    ∀ (k0 : Nat) (arr : Nat → Nat) (idx : Nat), idx < k0 * BLOCK_SIZE →
      read_blocks_loop disk l k0 arr idx = arr idx := by
  induction l with
  | nil => intro k0 arr idx _; rfl
  | cons b rest ih =>
    intro k0 arr idx hidx
    show read_blocks_loop disk rest (k0 + 1) _ idx = arr idx
    rw [ih (k0 + 1) _ idx (by simp [BLOCK_SIZE] at hidx ⊢; omega)]
    unfold memcpy_into
    have : ¬(k0 * BLOCK_SIZE ≤ idx ∧ idx < k0 * BLOCK_SIZE + BLOCK_SIZE) := by
      intro h; omega
    simp only [this, if_false]

/-- Inside the staging window, the block-read loop has filled position
`idx` from byte `idx % BLOCK_SIZE` of the block at chain position
`idx / BLOCK_SIZE`. -/
theorem read_blocks_loop_at (disk : Nat → DiskBlock) (l : List Nat) :
    ∀ (k0 : Nat) (arr : Nat → Nat) (idx : Nat),
      k0 * BLOCK_SIZE ≤ idx → idx < (k0 + l.length) * BLOCK_SIZE →
      read_blocks_loop disk l k0 arr idx =
        rawAt (disk (l.getD (idx / BLOCK_SIZE - k0) 0)) (idx % BLOCK_SIZE) := by
  induction l with
  | nil =>
    intro k0 arr idx h1 h2
    simp only [List.length_nil, Nat.add_zero] at h2
    omega
  | cons b rest ih =>
    intro k0 arr idx h1 h2
    show read_blocks_loop disk rest (k0 + 1) _ idx = _
    by_cases hlt : idx < (k0 + 1) * BLOCK_SIZE
    · rw [read_blocks_loop_lower disk rest (k0 + 1) _ idx hlt]
      unfold memcpy_into
      have hin : k0 * BLOCK_SIZE ≤ idx ∧ idx < k0 * BLOCK_SIZE + BLOCK_SIZE := by
        constructor
        · exact h1
        · simp [BLOCK_SIZE] at hlt ⊢; omega
      simp only [hin, and_self, if_true]
      have hdiv : idx / BLOCK_SIZE = k0 := by
        simp [BLOCK_SIZE] at h1 hlt ⊢; omega
      have hmod : idx % BLOCK_SIZE = idx - k0 * BLOCK_SIZE := by
        simp [BLOCK_SIZE] at h1 hlt ⊢; omega
      rw [hdiv, Nat.sub_self, List.getD_cons_zero, hmod, Nat.zero_add]
    · rw [ih (k0 + 1) _ idx (by omega)
        (by simp only [List.length_cons] at h2; simp [BLOCK_SIZE] at h2 ⊢; omega)]
      have hge : k0 + 1 ≤ idx / BLOCK_SIZE := by
        simp [BLOCK_SIZE] at hlt ⊢; omega
      have hshift : idx / BLOCK_SIZE - k0 = (idx / BLOCK_SIZE - (k0 + 1)) + 1 := by omega
      rw [hshift, List.getD_cons_succ]

/-- Indexing into the concatenation of equal-sized blocks. -/
theorem fileContent_getD (l : List (Nat → Nat)) :
    ∀ idx : Nat, idx < l.length * BLOCK_SIZE →
      fileContent l idx = (l.getD (idx / BLOCK_SIZE) (fun _ => 0)) (idx % BLOCK_SIZE) := by
  induction l with
  | nil => intro idx h; simp at h
  | cons b rest ih =>
    intro idx h
    unfold fileContent
    by_cases hlt : idx < BLOCK_SIZE
    · have hdiv : idx / BLOCK_SIZE = 0 := by simp [BLOCK_SIZE] at hlt ⊢; omega
      have hmod : idx % BLOCK_SIZE = idx := by simp [BLOCK_SIZE] at hlt ⊢; omega
      simp only [hlt, if_true, hdiv, hmod, List.getD_cons_zero]
    · simp only [hlt, if_false]
      rw [ih (idx - BLOCK_SIZE)
        (by simp only [List.length_cons] at h; simp [BLOCK_SIZE] at h hlt ⊢; omega)]
      have hdiv : idx / BLOCK_SIZE = (idx - BLOCK_SIZE) / BLOCK_SIZE + 1 := by
        simp only [BLOCK_SIZE] at hlt ⊢; omega
      have hmod : idx % BLOCK_SIZE = (idx - BLOCK_SIZE) % BLOCK_SIZE := by
        simp only [BLOCK_SIZE] at hlt ⊢; omega
      rw [hdiv, hmod, List.getD_cons_succ]

/-- In-bounds `getD` commutes with `map`. -/
theorem getD_map_of_lt {α β : Type} (f : α → β) (l : List α) :
    ∀ (n : Nat) (d1 : β) (d2 : α), n < l.length →
      (l.map f).getD n d1 = f (l.getD n d2) := by
  induction l with
  | nil => intro n d1 d2 h; simp at h
  | cons a rest ih =>
    intro n d1 d2 h
    cases n with
    | zero => rfl
    | succ m =>
      simp only [List.map_cons, List.getD_cons_succ]
      exact ih m d1 d2 (by simp at h; omega)

/-- A position inside a `memcpy_into` window reads from the source. -/
theorem memcpy_into_in (dst : Nat → Nat) (dstOff : Nat) (src : Nat → Nat)
    (srcOff n idx : Nat) (h1 : dstOff ≤ idx) (h2 : idx < dstOff + n) :
    memcpy_into dst dstOff src srcOff n idx = src (srcOff + (idx - dstOff)) := by
  unfold memcpy_into
  rw [if_pos ⟨h1, h2⟩]

/-- A position outside a `memcpy_into` window reads the old bytes. -/
theorem memcpy_into_out (dst : Nat → Nat) (dstOff : Nat) (src : Nat → Nat)
    (srcOff n idx : Nat) (h : ¬(dstOff ≤ idx ∧ idx < dstOff + n)) :
    memcpy_into dst dstOff src srcOff n idx = dst idx := by
  unfold memcpy_into
  rw [if_neg h]

/-- C3: for every mounted state and open descriptor whose offset is
within the file size (and whose chain materializes and covers the file
size, as the data-model invariants guarantee): if the file's first-block
index is `FAT_EOC`, `fs_read` returns 0 and leaves everything unchanged;
otherwise it returns `eff = min(count, size_file - offset)` and stores
into the buffer exactly bytes `[offset, offset + eff)` of the file's
content, the in-order concatenation (`fileContent`) of the data blocks
of its FAT chain, leaving the rest of the buffer untouched. -/

theorem fs_read_matches_chain_slice
    (fuel : Nat) (s : FSState) (fd : Int) (bf : Nat → Nat) (count : Nat)
    (i : Nat) (x : Int) (e : RootDirEntry) (off : Nat) (chain : List Nat)
    (hm : s.fs_mounted = true) (hfd : ¬ fd > (FS_OPEN_MAX_COUNT : Int))
    (hi : find_fd s.FD fd = some i)
    (hx : (s.FD i).idx_file_root_dir = x) (he : s.root_directory x = e)
    (hoffeq : (s.FD i).file_offset = off)
    (hoff : off ≤ e.size_file) (hsize : e.size_file < 2 ^ 64)
    (hch : e.idx_first_data_blk ≠ FAT_EOC →
      fat_chain s.fat fuel e.idx_first_data_blk = some chain)
    (hsz : e.idx_first_data_blk ≠ FAT_EOC →
      e.size_file ≤ chain.length * BLOCK_SIZE) :
    (e.idx_first_data_blk = FAT_EOC →
      fs_read fuel s fd (some bf) count = some (s, 0, some bf)) ∧
    (e.idx_first_data_blk ≠ FAT_EOC →
      ∃ bf2 : Nat → Nat,
        fs_read fuel s fd (some bf) count =
          some ({ s with FD := upd s.FD i ({ s.FD i with file_offset := off + min count (e.size_file - off) }) },
                Int.ofNat (min count (e.size_file - off)), some bf2) ∧
        (∀ k, k < min count (e.size_file - off) →
          bf2 k = fileContent
            ((chain.map (fun v => s.superblock.data_blk_start_idx + v)).map
              (fun b => rawAt (s.disk b))) (off + k)) ∧
        (∀ k, min count (e.size_file - off) ≤ k → bf2 k = bf k)) := by
  have hcond : ¬(¬s.fs_mounted = true ∨ fd > (FS_OPEN_MAX_COUNT : Int)) := by
    simp [hm, hfd]
  constructor
  · intro heoc
    unfold fs_read
    simp only [hcond, if_false, hi, hx, he, heoc, if_true]
  · intro hne
    have hchain := hch hne
    have hszc := hsz hne
    unfold fs_read
    simp only [hcond, if_false, hi, hx, he, hne, if_neg hne, hchain, hoffeq]
    have hd : sub_mod (2 ^ 64) e.size_file off = e.size_file - off :=
      sub_mod_eq_sub _ _ _ hoff hsize
    rw [hd]
    have hact : (if count > e.size_file - off then e.size_file - off else count)
        = min count (e.size_file - off) := by
      split <;> omega
    rw [hact]
    refine ⟨memcpy_into bf 0
      (read_blocks_loop s.disk
        (chain.map (fun v => s.superblock.data_blk_start_idx + v)) 0 (fun _ => 0))
      off (min count (e.size_file - off)), rfl, ?_, ?_⟩
    · intro k hk
      rw [memcpy_into_in _ _ _ _ _ k (Nat.zero_le k) (by omega)]
      simp only [Nat.sub_zero]
      have hlen : (chain.map (fun v => s.superblock.data_blk_start_idx + v)).length
          = chain.length := by simp
      have hoffk : off + k < chain.length * BLOCK_SIZE := by omega
      have hbound : off + k < (0 + (chain.map
          (fun v => s.superblock.data_blk_start_idx + v)).length) * BLOCK_SIZE := by
        rw [hlen, Nat.zero_add]; omega
      rw [read_blocks_loop_at s.disk _ 0 _ (off + k) (Nat.zero_le _) hbound]
      have hlen2 : ((chain.map (fun v => s.superblock.data_blk_start_idx + v)).map
          (fun b => rawAt (s.disk b))).length = chain.length := by simp
      rw [fileContent_getD _ (off + k) (by rw [hlen2]; omega)]
      have hidxlt : (off + k) / BLOCK_SIZE <
          (chain.map (fun v => s.superblock.data_blk_start_idx + v)).length := by
        rw [hlen]
        simp only [BLOCK_SIZE] at hoffk ⊢
        omega
      rw [getD_map_of_lt (fun b => rawAt (s.disk b)) _ _ _ 0 hidxlt]
      simp only [Nat.sub_zero]
    · intro k hk
      exact memcpy_into_out _ _ _ _ _ k (by omega)

/-- A one-block file of size 10 with its data block holding bytes
`o + 3`, read at offset 2 for 5 bytes. -/
theorem fs_read_matches_chain_slice_witness :
    (sC3.fs_mounted = true ∧ ¬(1 : Int) > (FS_OPEN_MAX_COUNT : Int) ∧
     find_fd sC3.FD 1 = some 0 ∧ (sC3.FD 0).idx_file_root_dir = 0 ∧
     sC3.root_directory 0 = eC3 ∧ (sC3.FD 0).file_offset = 2 ∧
     2 ≤ eC3.size_file ∧ eC3.size_file < 2 ^ 64 ∧
     (eC3.idx_first_data_blk ≠ FAT_EOC →
       fat_chain sC3.fat 5 eC3.idx_first_data_blk = some [1]) ∧
     (eC3.idx_first_data_blk ≠ FAT_EOC → eC3.size_file ≤ [1].length * BLOCK_SIZE)) ∧
    ((eC3.idx_first_data_blk = FAT_EOC →
      fs_read 5 sC3 1 (some bufA) 5 = some (sC3, 0, some bufA)) ∧
     (eC3.idx_first_data_blk ≠ FAT_EOC →
      ∃ bf2 : Nat → Nat,
        fs_read 5 sC3 1 (some bufA) 5 =
          some ({ sC3 with FD := upd sC3.FD 0 ({ sC3.FD 0 with file_offset := 2 + min 5 (eC3.size_file - 2) }) },
                Int.ofNat (min 5 (eC3.size_file - 2)), some bf2) ∧
        (∀ k, k < min 5 (eC3.size_file - 2) →
          bf2 k = fileContent
            (([1].map (fun v => sC3.superblock.data_blk_start_idx + v)).map
              (fun b => rawAt (sC3.disk b))) (2 + k)) ∧
        (∀ k, min 5 (eC3.size_file - 2) ≤ k → bf2 k = bufA k))) :=
  ⟨⟨rfl, by decide, rfl, rfl, rfl, rfl, by decide, by decide,
    fun _ => rfl, fun _ => by decide⟩,
   fs_read_matches_chain_slice 5 sC3 1 bufA 5 0 0 eC3 2 [1] rfl (by decide) rfl rfl rfl
     rfl (by decide) (by decide) (fun _ => rfl) (fun _ => by decide)⟩

/-- The byte-copy loop of `fs_write` never touches the descriptor table. -/
theorem write_inner_FD (buf : Nat → Nat) (count offset : Nat) (x : Int) :
    ∀ (f : Nat) (w : WSt), (write_inner buf count offset x f w).fs.FD = w.fs.FD := by
  intro f
  induction f with
  | zero => intro w; rfl
  | succ f ih =>
    intro w
    unfold write_inner
    split
    · split
      · rfl
      · exact ih _
    · rfl

/-- The main loop of `fs_write` never touches the descriptor table. -/
theorem write_outer_FD (buf : Nat → Nat) (count offset : Nat) (x : Int) (start fatFuel : Nat) :
    ∀ (f : Nat) (w w' : WSt),
      write_outer buf count offset x start fatFuel f w = some w' → w'.fs.FD = w.fs.FD := by
  intro f
  induction f with
  | zero => intro w w' h; exact absurd h (by simp [write_outer])
  | succ f ih =>
    intro w w' h
    unfold write_outer at h
    dsimp only [] at h
    split at h
    · split at h
      · split at h
        · injection h with h1
          subst h1
          exact write_inner_FD buf count offset x (count + 1) w
        · split at h
          · exact absurd h (by simp)
          · split at h
            · have h2 := ih _ _ h
              rw [h2, write_inner_FD]
            · have h2 := ih _ _ h
              rw [h2]
              exact write_inner_FD buf count offset x (count + 1) w
      · injection h with h1
        subst h1
        exact write_inner_FD buf count offset x (count + 1) w
    · injection h with h1
      subst h1
      rfl

/-- Any `fs_write` call that returns leaves the whole descriptor table
(and in particular every handle offset) unchanged. -/
theorem fs_write_FD (fuel : Nat) (s : FSState) (fd : Int) (buf : Option (Nat → Nat))
    (count : Nat) (s' : FSState) (r : Int)
    (h : fs_write fuel s fd buf count = some (s', r)) : s'.FD = s.FD := by
  unfold fs_write at h
  split at h
  · injection h with h1
    injection h1 with hA hB
    rw [← hA]
  · split at h
    · injection h with h1
      injection h1 with hA hB
      rw [← hA]
    · split at h
      · injection h with h1
        injection h1 with hA hB
        rw [← hA]
      · dsimp only [] at h
        split at h
        · exact absurd h (by simp)
        · split at h
          · exact absurd h (by simp)
          · rename_i w hw
            injection h with h1
            injection h1 with hA hB
            rw [← hA]
            show w.fs.FD = s.FD
            rw [write_outer_FD _ _ _ _ _ _ _ _ _ hw]

/-- A non-error `fs_read` advances exactly the matched handle offset by
the returned byte count, leaving every other slot unchanged. -/
theorem fs_read_advance (fuel : Nat) (s : FSState) (fd : Int) (buf : Option (Nat → Nat))
    (count : Nat) (s' : FSState) (r : Int) (bf2 : Option (Nat → Nat))
    (h : fs_read fuel s fd buf count = some (s', r, bf2)) (hr : 0 ≤ r) :
    ∃ i, find_fd s.FD fd = some i ∧
      ∀ j, s'.FD j = if j = i then ({ s.FD i with file_offset := (s.FD i).file_offset + r.toNat }) else s.FD j := by
  unfold fs_read at h
  split at h
  · injection h with h1
    injection h1 with hA hB
    injection hB with hC hD
    subst hC
    exact absurd hr (by decide)
  · split at h
    · injection h with h1
      injection h1 with hA hB
      injection hB with hC hD
      subst hC
      exact absurd hr (by decide)
    · split at h
      · injection h with h1
        injection h1 with hA hB
        injection hB with hC hD
        subst hC
        exact absurd hr (by decide)
      · rename_i i hfind
        dsimp only [] at h
        split at h
        · injection h with h1
          injection h1 with hA hB
          injection hB with hC hD
          subst hC
          refine ⟨i, hfind, fun j => ?_⟩
          rw [← hA]
          split
          · rename_i hji
            subst hji
            rfl
          · rfl
        · split at h
          · exact absurd h (by simp)
          · injection h with h1
            injection h1 with hA hB
            injection hB with hC hD
            subst hC
            refine ⟨i, hfind, fun j => ?_⟩
            rw [← hA]
            show upd s.FD i _ j = _
            unfold upd
            rfl

/-- C5: a successful `fs_read` returning `eff >= 0` advances that
handle's offset by exactly `eff` and leaves every other slot (offset and
directory index) unchanged, while a successful `fs_write` leaves the
entire descriptor table — its own handle included — unchanged. -/
theorem fs_rw_offset_frame
    (fuelR : Nat) (sR : FSState) (fdR : Int) (bufR : Option (Nat → Nat)) (countR : Nat)
    (pR : FSState × Int × Option (Nat → Nat))
    (fuelW : Nat) (sW : FSState) (fdW : Int) (bufW : Option (Nat → Nat)) (countW : Nat)
    (pW : FSState × Int)
    (hR : fs_read fuelR sR fdR bufR countR = some pR) (hr : 0 ≤ pR.2.1)
    (hW : fs_write fuelW sW fdW bufW countW = some pW) :
    (∃ i, find_fd sR.FD fdR = some i ∧
      ∀ j, pR.1.FD j = if j = i then ({ sR.FD i with file_offset := (sR.FD i).file_offset + pR.2.1.toNat }) else sR.FD j) ∧
    (∀ j, pW.1.FD j = sW.FD j) := by
  obtain ⟨sR', r, bfR'⟩ := pR
  obtain ⟨sW', rw'⟩ := pW
  exact ⟨fs_read_advance fuelR sR fdR bufR countR sR' r bfR' hR hr,
         fun j => by rw [fs_write_FD fuelW sW fdW bufW countW sW' rw' hW]⟩

/-- Witness for C5 at the concrete runs `c5r` and `c5w`. -/
theorem fs_rw_offset_frame_witness :
    (fs_read 5 sC3 1 (some bufA) 2 = some c5r ∧ 0 ≤ c5r.2.1 ∧
     fs_write 50 sC3 1 (some bufA) 3 = some c5w) ∧
    ((∃ i, find_fd sC3.FD 1 = some i ∧
       ∀ j, c5r.1.FD j = if j = i then ({ sC3.FD i with file_offset := (sC3.FD i).file_offset + c5r.2.1.toNat }) else sC3.FD j) ∧
     (∀ j, c5w.1.FD j = sC3.FD j)) :=
  ⟨⟨rfl, by decide, rfl⟩,
   fs_rw_offset_frame 5 sC3 1 (some bufA) 2 c5r 50 sC3 1 (some bufA) 3 c5w rfl (by decide) rfl⟩

/-- Updating then reading the same index yields the new value. -/
theorem updI_same {α : Type} (f : Int → α) (i : Int) (v : α) : updI f i v i = v := by
  unfold updI
  rw [if_pos rfl]

/-- Updating one index leaves the others unchanged. -/
theorem updI_other {α : Type} (f : Int → α) (i : Int) (v : α) (j : Int) (h : j ≠ i) :
    updI f i v j = f j := by
  unfold updI
  rw [if_neg h]

/-- Closed form of the byte-copy loop of `fs_write`: with a nonempty
staging area and the cursor inside it, the loop runs until the staging
area or the byte count is exhausted, ending with
`z = min count (counter * BLOCK_SIZE - offset)` and the written file's
`size_file` grown by the bytes copied; no other directory entry changes.
The staging buffer is existentially abstracted (its bytes are flushed to
disk and never re-read by the scenarios that use this lemma). -/
theorem write_inner_run (buf : Nat → Nat) (count offset : Nat) (x : Int) :
    ∀ (f : Nat) (w : WSt),
      w.fbs.length ≠ 0 →
      w.z + offset ≤ w.fbs.length * BLOCK_SIZE →
      w.z ≤ count →
      min count (w.fbs.length * BLOCK_SIZE - offset) - w.z < f →
      ∃ (arr2 : Nat → Nat) (rd2 : Int → RootDirEntry),
        write_inner buf count offset x f w =
          { fs := { w.fs with root_directory := rd2 },
            z := min count (w.fbs.length * BLOCK_SIZE - offset),
            arr := arr2, fbs := w.fbs } ∧
        rd2 x = { w.fs.root_directory x with size_file :=
                  (w.fs.root_directory x).size_file +
                  (min count (w.fbs.length * BLOCK_SIZE - offset) - w.z) } ∧
        ∀ j, j ≠ x → rd2 j = w.fs.root_directory j := by
  intro f
  induction f with
  | zero => intro w _ _ _ hfuel; omega
  | succ f ih =>
    intro w hcnt hzb hzc hfuel
    have hBpos : 0 < w.fbs.length * BLOCK_SIZE := by
      have hb : 0 < BLOCK_SIZE := by norm_num [BLOCK_SIZE]
      exact Nat.mul_pos (Nat.pos_of_ne_zero hcnt) hb
    by_cases hdiv : (w.z + offset) / (w.fbs.length * BLOCK_SIZE) = 0
    · have hlt : w.z + offset < w.fbs.length * BLOCK_SIZE :=
        (Nat.div_eq_zero_iff hBpos).mp hdiv
      by_cases hzeq : w.z = count
      · -- break at z = count
        have hz' : min count (w.fbs.length * BLOCK_SIZE - offset) = w.z := by omega
        refine ⟨w.arr, w.fs.root_directory, ?_, ?_, fun j _ => rfl⟩
        · unfold write_inner
          rw [if_pos ⟨hcnt, hdiv⟩, if_pos hzeq, hz']
        · rw [hz']
          simp only [Nat.sub_self, Nat.add_zero]
      · -- copy one byte and recurse
        have hzlt : w.z < count := Nat.lt_of_le_of_ne hzc hzeq
        unfold write_inner
        rw [if_pos ⟨hcnt, hdiv⟩, if_neg hzeq]
        dsimp only []
        set e1 : RootDirEntry := { w.fs.root_directory x with size_file := (w.fs.root_directory x).size_file + 1 } with he1
        set w2 : WSt :=
          { w with arr := upd w.arr (w.z + offset) (buf w.z), z := w.z + 1,
                   fs := ({ w.fs with root_directory := updI w.fs.root_directory x e1 }) } with hw2
        have hmin1 : w.z + 1 ≤ min count (w.fbs.length * BLOCK_SIZE - offset) := by omega
        obtain ⟨arr2, rd2, heq, hx, hother⟩ :=
          ih w2 (by simp [hw2, hcnt]) (by simp [hw2]; omega) (by simp [hw2]; omega)
            (by simp [hw2]; omega)
        refine ⟨arr2, rd2, ?_, ?_, ?_⟩
        · rw [heq]
        · rw [hx]
          have hx2 : w2.fs.root_directory x = e1 := by
            simp [hw2, updI_same]
          rw [hx2, he1]
          simp only [hw2]
          simp only [RootDirEntry.mk.injEq, and_true, true_and]
          omega
        · intro j hj
          rw [hother j hj]
          simp [hw2, updI_other _ _ _ _ hj]
    · -- staging area full: loop exits at once
      have hge : w.fbs.length * BLOCK_SIZE ≤ w.z + offset := by
        by_contra hcon
        exact hdiv (Nat.div_eq_zero_iff hBpos |>.mpr (by omega))
      have heqz : w.z + offset = w.fbs.length * BLOCK_SIZE := by omega
      have hz' : min count (w.fbs.length * BLOCK_SIZE - offset) = w.z := by omega
      refine ⟨w.arr, w.fs.root_directory, ?_, ?_, fun j _ => rfl⟩
      · unfold write_inner
        rw [if_neg (by rw [not_and_or]; right; exact hdiv), hz']
      · rw [hz']
        simp only [Nat.sub_self, Nat.add_zero]

/-- The main write loop exits at once when nothing remains to write. -/
theorem write_outer_exit (buf : Nat → Nat) (count offset : Nat) (x : Int)
    (start fatFuel f : Nat) (w : WSt) (hf : 0 < f) (hz : ¬ w.z < count) :
    write_outer buf count offset x start fatFuel f w = some w := by
  cases f with
  | zero => omega
  | succ f =>
    unfold write_outer
    rw [if_neg hz]

/-- The main write loop finishes when the byte-copy loop exhausts the
requested count. -/
theorem write_outer_full (buf : Nat → Nat) (count offset : Nat) (x : Int)
    (start fatFuel f : Nat) (w w1 : WSt) (hf : 0 < f) (hz : w.z < count)
    (hinner : write_inner buf count offset x (count + 1) w = w1)
    (h1 : ¬ w1.z < count) :
    write_outer buf count offset x start fatFuel f w = some w1 := by
  cases f with
  | zero => omega
  | succ f =>
    unfold write_outer
    rw [if_pos hz]
    dsimp only []
    rw [hinner, if_neg h1]

/-- The main write loop gives up (truncating the write) when bytes
remain but the free-block counter is zero. -/
theorem write_outer_nospace (buf : Nat → Nat) (count offset : Nat) (x : Int)
    (start fatFuel f : Nat) (w w1 : WSt) (hf : 0 < f) (hz : w.z < count)
    (hinner : write_inner buf count offset x (count + 1) w = w1)
    (h1 : w1.z < count) (hn : w1.fs.num_avail_data_blks = 0) :
    write_outer buf count offset x start fatFuel f w = some w1 := by
  cases f with
  | zero => omega
  | succ f =>
    unfold write_outer
    rw [if_pos hz]
    dsimp only []
    rw [hinner, if_pos h1, if_pos hn]

/-- One allocation iteration of the main write loop on an empty-chain
file, when the first-FAT-block scan finds free entry `d`. -/
theorem write_outer_alloc_eoc (buf : Nat → Nat) (count offset : Nat) (x : Int)
    (start fatFuel f : Nat) (w w1 : WSt) (d : Nat) (hf : 0 < f) (hz : w.z < count)
    (hinner : write_inner buf count offset x (count + 1) w = w1)
    (h1 : w1.z < count) (hn : ¬ w1.fs.num_avail_data_blks = 0)
    (hv : (w1.fs.root_directory x).idx_first_data_blk = FAT_EOC)
    (hscan : scan_free_fat w1.fs.fat NUM_ENTRIES_FAT_BLK 0 = some d) :
    write_outer buf count offset x start fatFuel f w =
      write_outer buf count offset x start fatFuel (f - 1) (alloc_step_eoc w1 x d start) := by
  cases f with
  | zero => omega
  | succ f =>
    conv_lhs => unfold write_outer
    rw [if_pos hz]
    dsimp only []
    rw [hinner, if_pos h1, if_neg hn, hv]
    simp only [ne_eq, not_true_eq_false, if_false, ite_false, ite_true, if_true, hscan]
    rw [Nat.add_sub_cancel]
    rfl

/-- If the tail-finding walk runs out of fuel the embedding reports
non-termination. -/
theorem write_outer_tail_none (buf : Nat → Nat) (count offset : Nat) (x : Int)
    (start fatFuel f : Nat) (w w1 : WSt) (hf : 0 < f) (hz : w.z < count)
    (hinner : write_inner buf count offset x (count + 1) w = w1)
    (h1 : w1.z < count) (hn : ¬ w1.fs.num_avail_data_blks = 0)
    (hv : (w1.fs.root_directory x).idx_first_data_blk ≠ FAT_EOC)
    (htail : tail_walk w1.fs.fat fatFuel (w1.fs.root_directory x).idx_first_data_blk = none) :
    write_outer buf count offset x start fatFuel f w = none := by
  cases f with
  | zero => omega
  | succ f =>
    unfold write_outer
    rw [if_pos hz]
    dsimp only []
    rw [hinner, if_pos h1, if_neg hn, if_pos hv, htail]

/-- When the first-FAT-block scan finds no free entry, the iteration
changes nothing and the loop repeats on the same state — the source of
the infinite loop when free entries exist only in later FAT blocks. -/
theorem write_outer_scan_none (buf : Nat → Nat) (count offset : Nat) (x : Int)
    (start fatFuel f : Nat) (w w1 : WSt) (tl : Nat) (hf : 0 < f) (hz : w.z < count)
    (hinner : write_inner buf count offset x (count + 1) w = w1)
    (h1 : w1.z < count) (hn : ¬ w1.fs.num_avail_data_blks = 0)
    (hv : (w1.fs.root_directory x).idx_first_data_blk ≠ FAT_EOC)
    (htail : tail_walk w1.fs.fat fatFuel (w1.fs.root_directory x).idx_first_data_blk = some tl)
    (hscan : scan_free_fat w1.fs.fat NUM_ENTRIES_FAT_BLK 0 = none) :
    write_outer buf count offset x start fatFuel f w =
      write_outer buf count offset x start fatFuel (f - 1) w1 := by
  cases f with
  | zero => omega
  | succ f =>
    conv_lhs => unfold write_outer
    rw [if_pos hz]
    dsimp only []
    rw [hinner, if_pos h1, if_neg hn, if_pos hv, htail, hscan, Nat.add_sub_cancel]

/-- `fs_write` in terms of its main loop: once the validations pass, the
chain is materialized and staged, and the loop result is known, the call
returns the loop state with all metadata flushed and the byte count. -/
theorem fs_write_eq_of_outer (fuel : Nat) (s : FSState) (fd : Int) (bf : Nat → Nat)
    (count : Nat) (i : Nat) (x : Int) (off : Nat) (chainRel fbs : List Nat)
    (d0 actual : Nat) (arr1 : Nat → Nat) (w' : WSt)
    (hcond : ¬(¬s.fs_mounted = true ∨ fd > (FS_OPEN_MAX_COUNT : Int)))
    (hi : find_fd s.FD fd = some i)
    (hx : (s.FD i).idx_file_root_dir = x)
    (hoff : (s.FD i).file_offset = off)
    (hch : (if (s.root_directory x).idx_first_data_blk ≠ FAT_EOC
            then fat_chain s.fat fuel (s.root_directory x).idx_first_data_blk
            else some []) = some chainRel)
    (hfbs : chainRel.map (fun v => s.superblock.data_blk_start_idx + v) = fbs)
    (hd0 : sub_mod (2 ^ 32) (s.root_directory x).size_file off = d0)
    (hact : (if count > d0 then d0 else count) = actual)
    (harr : memcpy_into (read_blocks_loop s.disk fbs 0 (fun _ => 0)) off bf 0 actual = arr1)
    (hout : write_outer bf count off x s.superblock.data_blk_start_idx fuel fuel
              { fs := s, z := actual, arr := arr1, fbs := fbs } = some w') :
    fs_write fuel s fd (some bf) count =
      some ({ w'.fs with disk := write_back_fat_loop w'.fs.fat 1 s.superblock.num_blks_fat (upd (write_back_blocks_loop w'.arr w'.fbs 0 w'.fs.disk) s.superblock.root_dir_blk_idx (DiskBlock.rootB (fun k => w'.fs.root_directory (Int.ofNat k)))) }, Int.ofNat w'.z) := by
  unfold fs_write
  dsimp only []
  rw [if_neg hcond, hi]
  dsimp only []
  rw [hx, hoff, hch]
  dsimp only []
  rw [hfbs, hd0, hact, harr, hout]

/-- First C4 write: writing `B + 100 = 4196` bytes to the empty file on
the one-usable-block disk returns exactly `B = 4096`, leaves
`size_file = 4096` with a one-block chain, and exhausts the free-block
counter; the descriptor table is untouched. -/
theorem c4_first : ∃ s3,
    fs_write 5000 c4_s2 1 (some bufA) 4196 = some (s3, 4096) ∧
    s3.fs_mounted = true ∧ s3.FD = c4_s2.FD ∧
    (s3.root_directory 0).size_file = 4096 ∧
    (s3.root_directory 0).idx_first_data_blk = 1 ∧
    s3.fat 1 = FAT_EOC ∧ s3.num_avail_data_blks = 0 ∧
    s3.superblock = c4_s2.superblock := by
  have hinner0 : write_inner bufA 4196 0 0 (4196 + 1) c4_w0 = c4_w0 := rfl
  have hstep1 := write_outer_alloc_eoc bufA 4196 0 0 3 5000 5000 c4_w0 c4_w0 1
    (by decide) (by decide) hinner0 (by decide) (by decide) rfl rfl
  obtain ⟨arr2, rd2, heq, hx2, hother⟩ :=
    write_inner_run bufA 4196 0 0 (4196 + 1) c4_w0p (by decide) (by decide) (by decide)
      (by decide)
  have hz96 : min 4196 (c4_w0p.fbs.length * BLOCK_SIZE - 0) = 4096 := by decide
  have hstep2 := write_outer_nospace bufA 4196 0 0 3 5000 (5000 - 1) c4_w0p _
    (by decide) (by decide) heq
    (show min 4196 (c4_w0p.fbs.length * BLOCK_SIZE - 0) < 4196 by decide)
    (show c4_w0p.fs.num_avail_data_blks = 0 by decide)
  have hout := hstep1.trans hstep2
  have hmain := fs_write_eq_of_outer 5000 c4_s2 1 bufA 4196 0 0 0 [] [] 0 0 c4_arr1 _
    (by decide) rfl rfl rfl rfl rfl rfl rfl rfl hout
  dsimp only [] at hmain
  rw [show (Int.ofNat (4196 ⊓ (c4_w0p.fbs.length * BLOCK_SIZE - 0))) = (4096 : Int) from by
    rw [hz96]; rfl] at hmain
  exact ⟨_, hmain, rfl, rfl,
    (show (rd2 0).size_file = 4096 by rw [hx2]; decide),
    (show (rd2 0).idx_first_data_blk = 1 by rw [hx2]; decide),
    rfl, rfl, rfl⟩

/-- Second C4 write, stated for any state that looks like the post-first-
write state: with the handle offset still 0 (write does not advance it),
size 4096, a one-block chain and no free blocks, writing 4196 bytes
returns 4096 — the overlap copy rewrites the existing block — and the
size stays 4096. -/
theorem fs_write_overwrite_one_block (s : FSState)
    (hm : s.fs_mounted = true) (hfind : find_fd s.FD 1 = some 0)
    (hx : (s.FD 0).idx_file_root_dir = 0) (hoff : (s.FD 0).file_offset = 0)
    (hj : (s.root_directory 0).idx_first_data_blk = 1)
    (hsz : (s.root_directory 0).size_file = 4096)
    (hfat : s.fat 1 = FAT_EOC)
    (hn : s.num_avail_data_blks = 0) :
    ∃ s4, fs_write 5000 s 1 (some bufA) 4196 = some (s4, 4096) ∧
      (s4.root_directory 0).size_file = 4096 := by
  have hch : (if (s.root_directory 0).idx_first_data_blk ≠ FAT_EOC
      then fat_chain s.fat 5000 (s.root_directory 0).idx_first_data_blk
      else some []) = some [1] := by
    rw [hj]
    rw [if_pos (by decide)]
    show fat_chain s.fat (4999 + 1) 1 = some [1]
    unfold fat_chain
    rw [if_pos hfat]
  have hinner : write_inner bufA 4196 0 0 (4196 + 1)
      { fs := s, z := 4096,
        arr := memcpy_into (read_blocks_loop s.disk
          ([1].map (fun v => s.superblock.data_blk_start_idx + v)) 0 (fun _ => 0)) 0 bufA 0 4096,
        fbs := [1].map (fun v => s.superblock.data_blk_start_idx + v) } =
      { fs := s, z := 4096,
        arr := memcpy_into (read_blocks_loop s.disk
          ([1].map (fun v => s.superblock.data_blk_start_idx + v)) 0 (fun _ => 0)) 0 bufA 0 4096,
        fbs := [1].map (fun v => s.superblock.data_blk_start_idx + v) } := by
    unfold write_inner
    rw [if_neg]
    intro hcond
    have h2 := hcond.2
    simp only [List.length_map, List.length_cons, List.length_nil, BLOCK_SIZE] at h2
    omega
  have hstep := write_outer_nospace bufA 4196 0 0 s.superblock.data_blk_start_idx 5000 5000
    _ _ (by decide) (show (4096 : Nat) < 4196 by decide) hinner
    (show (4096 : Nat) < 4196 by decide) hn
  have hd0 : sub_mod (2 ^ 32) (s.root_directory 0).size_file 0 = 4096 := by
    rw [hsz]
    decide
  have hmain := fs_write_eq_of_outer 5000 s 1 bufA 4196 0 0 0 [1]
    ([1].map (fun v => s.superblock.data_blk_start_idx + v)) 4096 4096
    (memcpy_into (read_blocks_loop s.disk
      ([1].map (fun v => s.superblock.data_blk_start_idx + v)) 0 (fun _ => 0)) 0 bufA 0 4096)
    _ (by rw [hm]; decide) hfind hx hoff hch rfl hd0 rfl rfl hstep
  exact ⟨_, hmain, hsz⟩

/-- C4 counterexample: on the `D = 2` disk, the first write of `B + 100`
bytes returns `B = 4096` and sets `size_file = 4096`, the handle offset
stays 0, and the second write through the same handle returns 4096 — not
0 as the claim states (4096 ≠ 0): with the offset back at 0 the second
write simply overwrites the existing block in place. -/
theorem fs_write_d2_second_write_counterexample :
    (∃ s3 s4,
      fs_write 5000 c4_s2 1 (some bufA) 4196 = some (s3, 4096) ∧
      (s3.root_directory 0).size_file = 4096 ∧
      (s3.FD 0).file_offset = 0 ∧
      fs_write 5000 s3 1 (some bufA) 4196 = some (s4, 4096)) ∧
    (4096 : Int) ≠ 0 := by
  refine ⟨?_, by decide⟩
  obtain ⟨s3, heq, hm, hFD, hsz, hidx, hfat, hn, hsb⟩ := c4_first
  obtain ⟨s4, heq2, hsz4⟩ := fs_write_overwrite_one_block s3 hm (by rw [hFD]; decide)
    (by rw [hFD]; rfl) (by rw [hFD]; rfl) hidx hsz hfat hn
  exact ⟨s3, s4, heq, hsz, by rw [hFD]; rfl, heq2⟩

/-- C4 amended: on a mounted filesystem with `D = 2` and a freshly
created empty file opened at offset 0, a first `fs_write` of `B + 100 =
4196` bytes returns exactly `B = 4096` and leaves `size_file = 4096`; a
second `fs_write` through the same handle (offset still 0, since write
does not advance it) returns `B = 4096` again, overwriting the existing
block and leaving `size_file = 4096`. -/
theorem fs_write_d2_second_write_amended :
    ∃ s3 s4,
      fs_write 5000 c4_s2 1 (some bufA) 4196 = some (s3, 4096) ∧
      (s3.root_directory 0).size_file = 4096 ∧
      (s3.FD 0).file_offset = 0 ∧
      fs_write 5000 s3 1 (some bufA) 4196 = some (s4, 4096) ∧
      (s4.root_directory 0).size_file = 4096 := by
  obtain ⟨s3, heq, hm, hFD, hsz, hidx, hfat, hn, hsb⟩ := c4_first
  obtain ⟨s4, heq2, hsz4⟩ := fs_write_overwrite_one_block s3 hm (by rw [hFD]; decide)
    (by rw [hFD]; rfl) (by rw [hFD]; rfl) hidx hsz hfat hn
  exact ⟨s3, s4, heq, hsz, by rw [hFD]; rfl, heq2, hsz4⟩

/-- The chain of the C2 file materializes: from block `2047 - d` the walk
yields `range (2047 - d) .. 2047` within `d + 1` steps of fuel. -/
theorem stuck_chain_exists : ∀ d : Nat, d ≤ 2046 → ∀ f : Nat, d < f →
    fat_chain stuckFat f (2047 - d) = some (List.range' (2047 - d) (d + 1)) := by
  intro d
  induction d with
  | zero =>
    intro _ f hf
    cases f with
    | zero => omega
    | succ f =>
      show fat_chain stuckFat (f + 1) 2047 = some (List.range' 2047 1)
      unfold fat_chain
      rw [if_pos (by decide : stuckFat 2047 = FAT_EOC)]
      rfl
  | succ d ih =>
    intro hd f hf
    cases f with
    | zero => omega
    | succ f =>
      have hfatcur : stuckFat (2047 - (d + 1)) = 2047 - d := by
        unfold stuckFat
        rw [if_neg (by omega), if_pos (by omega)]
        omega
      unfold fat_chain
      rw [hfatcur, if_neg (by simp only [FAT_EOC]; omega)]
      rw [ih (by omega) f (by omega)]
      have hrange : List.range' (2047 - (d + 1)) (d + 1 + 1) =
          (2047 - (d + 1)) :: List.range' (2047 - d) (d + 1) := by
        rw [List.range'_succ, show 2047 - (d + 1) + 1 = 2047 - d by omega]
      rw [hrange]

/-- Any successful materialization of the C2 chain yields exactly the
blocks `cur .. 2047`, regardless of fuel. -/
theorem stuck_chain_unique : ∀ (f cur : Nat) (c : List Nat), 1 ≤ cur → cur ≤ 2047 →
    fat_chain stuckFat f cur = some c → c = List.range' cur (2048 - cur) := by
  intro f
  induction f with
  | zero => intro cur c _ _ h; exact absurd h (by simp [fat_chain])
  | succ f ih =>
    intro cur c h1 h2 h
    unfold fat_chain at h
    by_cases hcur : cur = 2047
    · subst hcur
      rw [if_pos (by decide : stuckFat 2047 = FAT_EOC)] at h
      injection h with h3
      rw [← h3]
      rfl
    · have hfatcur : stuckFat cur = cur + 1 := by
        unfold stuckFat
        rw [if_neg (by omega), if_pos (by omega)]
      rw [hfatcur, if_neg (by simp only [FAT_EOC]; omega)] at h
      cases heq : fat_chain stuckFat f (cur + 1) with
      | none => rw [heq] at h; exact absurd h (by simp)
      | some rest =>
        rw [heq] at h
        injection h with h3
        have hrest := ih (cur + 1) rest (by omega) (by omega) heq
        rw [← h3, hrest]
        have : 2048 - cur = (2048 - (cur + 1)) + 1 := by omega
        rw [this, List.range'_succ]

/-- The allocation scan finds nothing when no scanned entry is free. -/
theorem scan_free_fat_none (fat : Nat → Nat) : ∀ (n d0 : Nat),
    (∀ i, i < n → fat (d0 + i) ≠ 0) → scan_free_fat fat n d0 = none := by
  intro n
  induction n with
  | zero => intro d0 _; rfl
  | succ n ih =>
    intro d0 h
    unfold scan_free_fat
    rw [if_neg (by have := h 0 (by omega); simpa using this)]
    exact ih (d0 + 1) (fun i hi => by
      have := h (i + 1) (by omega)
      rwa [show d0 + (i + 1) = d0 + 1 + i by omega] at this)

/-- No entry of the first FAT block of the C2 state is free. -/
theorem stuckFat_no_free_below_2048 : ∀ i, i < 2048 → stuckFat (0 + i) ≠ 0 := by
  intro i hi
  simp only [Nat.zero_add]
  unfold stuckFat
  split_ifs with h1 h2 h3
  · decide
  · omega
  · decide
  · omega

/-- The first-FAT-block-only allocation scan of `fs_write` finds no free
entry in the C2 state, although entry 2048 (second FAT block) is free. -/
theorem stuck_scan_none : scan_free_fat stuckFat NUM_ENTRIES_FAT_BLK 0 = none :=
  scan_free_fat_none stuckFat NUM_ENTRIES_FAT_BLK 0 stuckFat_no_free_below_2048

/-- Entries 0..2047 of the C2 FAT are all in use. -/
theorem stuckFat_nonzero (n : Nat) (hn : n ≤ 2047) : stuckFat n ≠ 0 := by
  have := stuckFat_no_free_below_2048 n (by omega)
  simpa using this

/-- Every directory slot of the C2 state other than 0 is free. -/
theorem stuckRoot_nonzero (x : Int) (hx : x ≠ 0) :
    stuckState.root_directory x = freeEntry := by
  show (if x = 0 then stuckEntry else freeEntry) = freeEntry
  rw [if_neg hx]

/-- The full chain of the C2 file: blocks 1..2047. -/
theorem stuck_chain_full (f : Nat) (hf : 2046 < f) :
    fat_chain stuckFat f 1 = some (List.range' 1 2047) := by
  have h := stuck_chain_exists 2046 (by omega) f hf
  norm_num at h
  exact h

/-- No data block of the first FAT block is free in the C2 state. -/
theorem stuck_filter_empty : ∀ n : Nat, n ≤ 2048 →
    (List.range n).filter (fun v => !(v == 0) && (stuckFat v == 0)) = [] := by
  intro n
  induction n with
  | zero => intro _; rfl
  | succ n ih =>
    intro hn
    rw [List.range_succ, List.filter_append, ih (by omega)]
    have hp : (!(n == 0) && (stuckFat n == 0)) = false := by
      by_cases h0 : n = 0
      · subst h0; rfl
      · have h1 := stuckFat_nonzero n (by omega)
        simp [h0, h1]
    simp [List.filter, hp]

/-- Exactly one free data block exists in the C2 state (entry 2048). -/
theorem stuck_free_count : free_fat_count stuckState = 1 := by
  show ((List.range 2049).filter (fun v => !(v == 0) && (stuckFat v == 0))).length = 1
  rw [show (2049 : Nat) = 2048 + 1 from rfl, List.range_succ, List.filter_append,
    stuck_filter_empty 2048 (by omega)]
  rfl

/-- The C2 counterexample state satisfies all the data-model invariants. -/
theorem stuck_invariant : Invariant stuckState := by
  refine ⟨rfl, by decide, by decide, by decide, by decide, by decide, by decide, ?_, ?_, ?_, ?_, ?_⟩
  · rw [stuck_free_count]
    rfl
  · intro x hx hocc
    by_cases h0 : x = 0
    · subst h0
      show chain_ok stuckState 0
      unfold chain_ok
      rw [if_neg (by decide)]
      refine ⟨List.range' 1 2047, ?_, ?_, by simp [List.nodup_range'], ?_⟩
      · show fat_chain stuckFat 2050 1 = some (List.range' 1 2047)
        exact stuck_chain_full 2050 (by omega)
      · intro v hv
        rw [List.mem_range'_1] at hv
        show 1 ≤ v ∧ v < 2049
        omega
      · rw [List.length_range']
        show 2047 * 4096 ≤ 2047 * BLOCK_SIZE
        norm_num [BLOCK_SIZE]
    · rw [stuckRoot_nonzero (x : Int) (by omega)] at hocc
      exact absurd rfl hocc
  · intro v hv1 hv2 hvfat
    have hvle : v ≤ 2047 := by
      by_contra hcon
      apply hvfat
      show stuckFat v = 0
      unfold stuckFat
      rw [if_neg (by omega), if_neg (by omega), if_neg (by omega)]
    refine ⟨0, by decide, by decide, List.range' 1 2047, ?_, ?_⟩
    · show fat_chain stuckFat 2050 1 = some (List.range' 1 2047)
      exact stuck_chain_full 2050 (by omega)
    · rw [List.mem_range'_1]
      omega
  · intro x y hx hy hxy hoccx hoccy
    by_cases h0 : x = 0
    · rw [stuckRoot_nonzero (y : Int) (by omega)] at hoccy
      exact absurd rfl hoccy
    · rw [stuckRoot_nonzero (x : Int) (by omega)] at hoccx
      exact absurd rfl hoccx
  · intro i hi hfd
    by_cases h0 : i = 0
    · subst h0
      exact ⟨0, by decide, rfl, by decide, by decide⟩
    · exact absurd (show (stuckState.FD i).file_descriptor = 0 by
        show (if i = 0 then (⟨0, 1, 2047 * 4096⟩ : FileDescriptor) else empty_FD).file_descriptor = 0
        rw [if_neg h0]
        rfl) hfd

/-- The heart of C2: from the stuck configuration — all requested bytes
beyond the staged area, free blocks available by the counter, but no free
entry in the first FAT block — every iteration of `fs_write`'s main loop
repeats on an unchanged state, so the loop never finishes for any fuel.
(The source's unconditional `break` after the first FAT block of the
allocation scan is what prevents progress.) -/
theorem stuck_outer_none : ∀ (f fatFuel : Nat) (w : WSt),
    w.z = 0 → w.fbs.length = 2047 → w.fs.fat = stuckFat →
    (w.fs.root_directory 0).idx_first_data_blk = 1 →
    ¬ w.fs.num_avail_data_blks = 0 →
    write_outer bufA 1 (2047 * 4096) 0 4 fatFuel f w = none := by
  intro f
  induction f with
  | zero => intro fatFuel w _ _ _ _ _; rfl
  | succ f ih =>
    intro fatFuel w hz hlen hfat hidx hn
    have hinner : write_inner bufA 1 (2047 * 4096) 0 (1 + 1) w = w := by
      unfold write_inner
      rw [if_neg]
      intro hcond
      have h2 := hcond.2
      rw [hz, hlen] at h2
      norm_num [BLOCK_SIZE] at h2
    unfold write_outer
    rw [if_pos (by rw [hz]; decide)]
    dsimp only []
    rw [hinner, if_pos (by rw [hz]; decide), if_neg hn,
      if_pos (by rw [hidx]; decide)]
    rw [hidx]
    cases htail : tail_walk w.fs.fat fatFuel 1 with
    | none => rfl
    | some tl =>
      rw [hfat, stuck_scan_none]
      exact ih fatFuel w hz hlen hfat hidx hn

/-- C2: the claim fails on the code. `stuckState` is a mounted state
satisfying the data-model invariants, descriptor 1 is open with its
offset at the file's end, the buffer is non-null and the count is 1, yet
`fs_write` does not terminate: its embedding returns `none` for every
fuel, because the free data block that `num_avail_data_blks` promises
lives in the second FAT block, which the allocation scan never reaches
(unconditional `break` at the end of the first outer iteration). -/
theorem fs_write_diverges_free_block_in_second_fat_block :
    Invariant stuckState ∧
    find_fd stuckState.FD 1 = some 0 ∧
    (stuckState.FD 0).file_offset ≤ (stuckState.root_directory 0).size_file ∧
    (∀ fuel : Nat, fs_write fuel stuckState 1 (some bufA) 1 = none) := by
  refine ⟨stuck_invariant, rfl, by decide, ?_⟩
  intro fuel
  unfold fs_write
  dsimp only []
  rw [if_neg (by decide)]
  rw [show find_fd stuckState.FD 1 = some 0 from rfl]
  dsimp only []
  rw [show (stuckState.root_directory (stuckState.FD 0).idx_file_root_dir).idx_first_data_blk
        = 1 from rfl]
  rw [if_pos (by decide : ((1 : Nat) ≠ FAT_EOC))]
  cases hch : fat_chain stuckState.fat fuel 1 with
  | none => rfl
  | some c =>
    have hc := stuck_chain_unique fuel 1 c (by omega) (by omega) hch
    subst hc
    show (match write_outer bufA 1 (stuckState.FD 0).file_offset
            (stuckState.FD 0).idx_file_root_dir stuckState.superblock.data_blk_start_idx
            fuel fuel _ with
          | none => none
          | some w => _) = none
    rw [show write_outer bufA 1 (stuckState.FD 0).file_offset
          (stuckState.FD 0).idx_file_root_dir stuckState.superblock.data_blk_start_idx
          fuel fuel _ = none from stuck_outer_none fuel fuel _ (by decide)
            (by simp [List.length_map, List.length_range']) rfl rfl (by decide)]
